import Mathlib

/-!
Verification of the plugin registry and execution layer of `_plugin.py`
(OceanBase Deploy).  The Python source is embedded shallowly:

* a dotted version string is split into string tokens (`Plugin.__init__`
  does `version.split('.')`), and the resolver compares the resulting
  token lists with Python's `<` on `list[str]`, i.e. lexicographic list
  comparison whose elements are compared as strings (code-point order);
* `ComponentPluginLoader.get_best_plugin` is modelled as a pure function
  from the discovered plugin list to an optional plugin plus the warning
  messages it emits through `stdio`;
* the script-plugin execution wrapper `pyScriptPluginExec` is modelled as
  a state transformer over the plugin's `module`/`context` fields, where
  a script entry function is a function from the execution context to a
  new context paired with a flag telling whether it raised;
* the lazily parsed manifests of `ParamPlugin.params` and
  `InstallPlugin.file_map` take the YAML layer's output as input (the
  YAML parser is an external collaborator): `none` stands for a missing
  file or an unparseable document, and each record's fields are optional,
  an absent required field standing for the `KeyError` path.
-/

/- ===== Version comparator (Plugin.__init__ / ComponentPluginLoader.get_best_plugin) ===== -/

/-- Python's `str.split(sep)` for a one-character separator, on the char list:
every occurrence of the separator splits, empty pieces are kept. -/
def splitTokens (sep : Char) : List Char → List Char → List (List Char)
  | [], cur => [cur.reverse]
  | c :: cs, cur => if c = sep then cur.reverse :: splitTokens sep cs [] else splitTokens sep cs (c :: cur)

/-- Embedding of `version.split('.')` from `Plugin.__init__` and `get_best_plugin`. -/
def splitVersion (s : String) : List String :=
  (splitTokens '.' s.data []).map String.mk

/-- Python's `<` on single characters (code-point order). -/
def pyCharLt (a b : Char) : Bool := a.toNat < b.toNat

/-- Python's lexicographic `<` on sequences: equal heads are skipped, the
first differing position decides via the element order; a strict prefix is
smaller. This is both `str < str` (over chars) and `list < list` (over
strings). -/
def lexLt {α : Type} [DecidableEq α] (lt : α → α → Bool) : List α → List α → Bool
  | [], [] => false
  | [], _ :: _ => true
  | _ :: _, [] => false
  | a :: as, b :: bs => if a = b then lexLt lt as bs else lt a b

/-- Python's `<` on strings. -/
def pyStrLt (a b : String) : Bool := lexLt pyCharLt a.data b.data

/-- Python's `<` on `list[str]`: the comparison `plugin.version < version`
performed by `ComponentPluginLoader.get_best_plugin`. -/
def versionLt (a b : List String) : Bool := lexLt pyStrLt a b

/- ===== Order facts about the comparator ===== -/

theorem lexLt_self_eq_false {α : Type} [DecidableEq α] (lt : α → α → Bool) :
    ∀ l : List α, lexLt lt l l = false
  | [] => rfl
  | _ :: as => by simp [lexLt, lexLt_self_eq_false lt as]

theorem lexLt_trans {α : Type} [DecidableEq α] {lt : α → α → Bool}
    (htr : ∀ a b c, lt a b = true → lt b c = true → lt a c = true)
    (hirr : ∀ a, lt a a = false) :
    ∀ {la lb lc : List α}, lexLt lt la lb = true → lexLt lt lb lc = true → lexLt lt la lc = true := by
  intro la
  induction la with
  | nil =>
    intro lb lc h1 h2
    cases lb with
    | nil => simp [lexLt] at h1
    | cons b bs =>
      cases lc with
      | nil => simp [lexLt] at h2
      | cons c cs => simp [lexLt]
  | cons a as ih =>
    intro lb lc h1 h2
    cases lb with
    | nil => simp [lexLt] at h1
    | cons b bs =>
      cases lc with
      | nil => simp [lexLt] at h2
      | cons c cs =>
        simp only [lexLt] at h1 h2 ⊢
        by_cases hab : a = b
        · subst hab
          by_cases hbc : a = c
          · subst hbc
            simp only [if_pos rfl] at h1 h2 ⊢
            exact ih h1 h2
          · simp only [if_pos rfl] at h1
            simpa [hbc] using h2
        · by_cases hbc : b = c
          · subst hbc
            simpa [hab] using h1
          · simp only [if_neg hab] at h1
            simp only [if_neg hbc] at h2
            have hac : lt a c = true := htr a b c h1 h2
            have hne : a ≠ c := by
              intro h
              subst h
              have : lt a a = true := htr a b a h1 h2
              rw [hirr a] at this
              exact Bool.false_ne_true this
            simpa [hne] using hac

theorem lexLt_connex {α : Type} [DecidableEq α] {lt : α → α → Bool}
    (htot : ∀ a b : α, a ≠ b → lt a b = true ∨ lt b a = true) :
    ∀ {la lb : List α}, la ≠ lb → lexLt lt la lb = true ∨ lexLt lt lb la = true := by
  intro la
  induction la with
  | nil =>
    intro lb hne
    cases lb with
    | nil => exact absurd rfl hne
    | cons b bs => left; rfl
  | cons a as ih =>
    intro lb hne
    cases lb with
    | nil => right; rfl
    | cons b bs =>
      by_cases hab : a = b
      · subst hab
        have hbs : as ≠ bs := fun h => hne (by rw [h])
        simpa [lexLt] using ih hbs
      · simpa [lexLt, hab, Ne.symm hab] using htot a b hab

theorem Char.toNat_injective {a b : Char} (h : a.toNat = b.toNat) : a = b :=
  Char.eq_of_val_eq (UInt32.eq_of_toBitVec_eq (by
    simp [Char.toNat, UInt32.toNat] at h
    exact BitVec.eq_of_toNat_eq h))

theorem pyCharLt_trans (a b c : Char) (h1 : pyCharLt a b = true) (h2 : pyCharLt b c = true) :
    pyCharLt a c = true := by
  simp [pyCharLt] at h1 h2 ⊢
  exact Nat.lt_trans h1 h2

theorem pyCharLt_irrefl (a : Char) : pyCharLt a a = false := by
  simp [pyCharLt]

theorem pyCharLt_connex (a b : Char) (hne : a ≠ b) :
    pyCharLt a b = true ∨ pyCharLt b a = true := by
  have hnat : a.toNat ≠ b.toNat := fun h => hne (Char.toNat_injective h)
  rcases Nat.lt_or_ge a.toNat b.toNat with h | h
  · left; simpa [pyCharLt] using h
  · right
    have : b.toNat < a.toNat := Nat.lt_of_le_of_ne h (Ne.symm hnat)
    simpa [pyCharLt] using this

theorem String.data_injective {a b : String} (h : a.data = b.data) : a = b := by
  cases a; cases b; exact congrArg String.mk h

theorem pyStrLt_trans (a b c : String) (h1 : pyStrLt a b = true) (h2 : pyStrLt b c = true) :
    pyStrLt a c = true :=
  lexLt_trans pyCharLt_trans pyCharLt_irrefl h1 h2

theorem pyStrLt_irrefl (a : String) : pyStrLt a a = false :=
  lexLt_self_eq_false pyCharLt a.data

theorem pyStrLt_connex (a b : String) (hne : a ≠ b) :
    pyStrLt a b = true ∨ pyStrLt b a = true := by
  have hdata : a.data ≠ b.data := fun h => hne (String.data_injective h)
  exact lexLt_connex pyCharLt_connex hdata

theorem versionLt_trans {a b c : List String} (h1 : versionLt a b = true)
    (h2 : versionLt b c = true) : versionLt a c = true :=
  lexLt_trans pyStrLt_trans pyStrLt_irrefl h1 h2

theorem versionLt_irrefl (a : List String) : versionLt a a = false :=
  lexLt_self_eq_false pyStrLt a

theorem versionLt_connex {a b : List String} (hne : a ≠ b) :
    versionLt a b = true ∨ versionLt b a = true :=
  lexLt_connex pyStrLt_connex hne

theorem versionLt_asymm {a b : List String} (h : versionLt a b = true) :
    versionLt b a = false := by
  by_contra hx
  rw [Bool.not_eq_false] at hx
  have := versionLt_trans h hx
  rw [versionLt_irrefl] at this
  exact Bool.false_ne_true this

/- ===== Plugin artifacts and the component loader's resolution algorithm ===== -/

/-- One on-disk plugin artifact (`Plugin.__init__`): the version string is
stored split into its dot-separated tokens. -/
structure Plugin where
  component_name : String
  plugin_path : String
  version : List String
deriving DecidableEq

/-- Embedding of `Plugin.__init__(component_name, plugin_path, version)`:
`self.version = version.split('.')`. -/
def Plugin.init (component_name plugin_path version : String) : Plugin :=
  ⟨component_name, plugin_path, splitVersion version⟩

/-- The fallback message of `get_best_plugin`, as the data it interpolates:
component name, lower-cased plugin-kind name, requested tokens, selected
tokens. -/
structure FallbackWarning where
  component_name : String
  kind_name : String
  requested : List String
  selected : List String
deriving DecidableEq

/-- The `for` loop of `get_best_plugin`: first exact match (early `return`),
paired with the `plugins` list accumulated from artifacts whose version
compares `<` the requested one. -/
def findExactOrLess (v : List String) : List Plugin → Option Plugin × List Plugin
  | [] => (none, [])
  | p :: ps =>
    if p.version = v then (some p, [])
    else
      let r := findExactOrLess v ps
      (r.1, if versionLt p.version v then p :: r.2 else r.2)

/-- Python's `max(plugins, key=lambda x: x.version)` starting from a current
candidate: the candidate is replaced only by a strictly greater element, so
the first maximum wins. -/
def pyMaxByVersion (cur : Plugin) : List Plugin → Plugin
  | [] => cur
  | p :: ps => pyMaxByVersion (if versionLt cur.version p.version = true then p else cur) ps

/-- Embedding of `ComponentPluginLoader.get_best_plugin(version)` over an already
discovered plugin list. `hasStdio` is the truthiness of `self.stdio`: the
fallback warning is only emitted when a stdio object is attached. The
second component collects the emitted warnings. -/
def ComponentPluginLoader.get_best_plugin (component_name kind_name : String) (hasStdio : Bool)
    (plugins : List Plugin) (version : String) : Option Plugin × List FallbackWarning :=
  match (findExactOrLess (splitVersion version) plugins).1 with
  | some p => (some p, [])
  | none =>
    match (findExactOrLess (splitVersion version) plugins).2 with
    | [] => (none, [])
    | p :: ps =>
      (some (pyMaxByVersion p ps),
        if hasStdio then
          [⟨component_name, kind_name, splitVersion version, (pyMaxByVersion p ps).version⟩]
        else [])

theorem findExactOrLess_fst (v : List String) :
    ∀ l : List Plugin, (findExactOrLess v l).1 = l.find? (fun p => decide (p.version = v)) := by
  intro l
  induction l with
  | nil => rfl
  | cons p ps ih =>
    by_cases h : p.version = v
    · simp [findExactOrLess, List.find?, h]
    · simp [findExactOrLess, List.find?, h, ih]

theorem findExactOrLess_snd (v : List String) :
    ∀ l : List Plugin, (∀ p ∈ l, p.version ≠ v) →
      (findExactOrLess v l).2 = l.filter (fun p => versionLt p.version v) := by
  intro l
  induction l with
  | nil => intro _; rfl
  | cons p ps ih =>
    intro h
    have hp : p.version ≠ v := h p (List.mem_cons_self p ps)
    have hps : ∀ q ∈ ps, q.version ≠ v := fun q hq => h q (List.mem_cons_of_mem p hq)
    by_cases hlt : versionLt p.version v = true
    · simp [findExactOrLess, hp, hlt, List.filter, ih hps]
    · simp only [Bool.not_eq_true] at hlt
      simp [findExactOrLess, hp, hlt, List.filter, ih hps]

theorem pyMaxByVersion_mem : ∀ (cur : Plugin) (ps : List Plugin), pyMaxByVersion cur ps ∈ cur :: ps := by
  intro cur ps
  induction ps generalizing cur with
  | nil => exact List.mem_cons_self cur []
  | cons p ps ih =>
    simp only [pyMaxByVersion]
    rw [List.mem_cons, List.mem_cons]
    by_cases h : versionLt cur.version p.version = true
    · simp only [if_pos h]
      have hm := ih p
      rw [List.mem_cons] at hm
      rcases hm with h1 | h1
      · right; left; exact h1
      · right; right; exact h1
    · simp only [if_neg h]
      have hm := ih cur
      rw [List.mem_cons] at hm
      rcases hm with h1 | h1
      · left; exact h1
      · right; right; exact h1

theorem pyMaxByVersion_not_lt :
    ∀ (cur : Plugin) (ps : List Plugin) (x : Plugin), x ∈ cur :: ps →
      versionLt (pyMaxByVersion cur ps).version x.version = false := by
  intro cur ps
  induction ps generalizing cur with
  | nil =>
    intro x hx
    rw [List.mem_cons] at hx
    rcases hx with hx | hx
    · rw [hx]; exact versionLt_irrefl _
    · simp at hx
  | cons p ps ih =>
    intro x hx
    rw [List.mem_cons, List.mem_cons] at hx
    simp only [pyMaxByVersion]
    by_cases hcp : versionLt cur.version p.version = true
    · simp only [if_pos hcp]
      rcases hx with hx | hx | hx
      · -- x = cur: the maximum dominates p, which already dominates cur
        rw [hx]
        have hmp : versionLt (pyMaxByVersion p ps).version p.version = false :=
          ih p p (List.mem_cons_self p ps)
        by_contra hmc
        rw [Bool.not_eq_false] at hmc
        have h2 := versionLt_trans hmc hcp
        rw [hmp] at h2
        exact Bool.false_ne_true h2
      · rw [hx]; exact ih p p (List.mem_cons_self p ps)
      · exact ih p x (List.mem_cons_of_mem p hx)
    · simp only [if_neg hcp]
      have hcp' : versionLt cur.version p.version = false := by
        simpa using hcp
      rcases hx with hx | hx | hx
      · rw [hx]; exact ih cur cur (List.mem_cons_self cur ps)
      · -- x = p: cur dominates p, and the maximum dominates cur
        rw [hx]
        have hmc : versionLt (pyMaxByVersion cur ps).version cur.version = false :=
          ih cur cur (List.mem_cons_self cur ps)
        by_cases hmcur : (pyMaxByVersion cur ps).version = cur.version
        · rw [hmcur]
          by_cases hcurp : cur.version = p.version
          · rw [hcurp]; exact versionLt_irrefl _
          · exact hcp'
        · rcases versionLt_connex hmcur with hlt | hlt
          · rw [hmc] at hlt; exact absurd hlt Bool.false_ne_true
          · by_cases hcurp : cur.version = p.version
            · rw [← hcurp]; exact hmc
            · rcases versionLt_connex hcurp with hlt2 | hlt2
              · rw [hcp'] at hlt2; exact absurd hlt2 Bool.false_ne_true
              · exact versionLt_asymm (versionLt_trans hlt2 hlt)
      · exact ih cur x (List.mem_cons_of_mem cur hx)

/- ===== Claim C1: which token ordering does the resolver use? ===== -/

/-- C1: the claim says the resolver compares dot-separated tokens as
integers, so that "3.9" orders strictly below "3.10". The code stores the
tokens as strings and compares with Python's list/string `<`, under which
"3.9" orders strictly ABOVE "3.10": a request for "3.10" with only a "3.9"
artifact available resolves to nothing, and a request for "3.9" with only
a "3.10" artifact available selects the strictly newer "3.10" artifact.
This theorem evaluates the embedded code at that failing input. -/
theorem C1_string_token_ordering :
    versionLt (splitVersion "3.9") (splitVersion "3.10") = false ∧
    versionLt (splitVersion "3.10") (splitVersion "3.9") = true ∧
    (ComponentPluginLoader.get_best_plugin "obproxy" "param" true
        [Plugin.init "obproxy" "/plugins/obproxy/3.9" "3.9"] "3.10").1 = none ∧
    (ComponentPluginLoader.get_best_plugin "obproxy" "param" true
        [Plugin.init "obproxy" "/plugins/obproxy/3.10" "3.10"] "3.9").1
      = some (Plugin.init "obproxy" "/plugins/obproxy/3.10" "3.10") := by
  refine ⟨by decide, by decide, by decide, by decide⟩

/- ===== Claim C2: exact match wins, first found, no warning ===== -/

/-- C2: if some discovered artifact's token sequence equals the requested
one, `get_best_plugin` returns the first such artifact (the one `find?`
locates) and emits no fallback warning. -/
theorem C2_exact_match_resolution (c k : String) (io : Bool) (plugins : List Plugin)
    (version : String) (h : ∃ p ∈ plugins, p.version = splitVersion version) :
    ∃ p, ComponentPluginLoader.get_best_plugin c k io plugins version = (some p, []) ∧
      plugins.find? (fun q => decide (q.version = splitVersion version)) = some p ∧
      p.version = splitVersion version := by
  obtain ⟨q, hq, hqv⟩ := h
  have hsome : (plugins.find? (fun q => decide (q.version = splitVersion version))).isSome := by
    rw [List.find?_isSome]
    exact ⟨q, hq, by simpa using hqv⟩
  obtain ⟨p, hp⟩ := Option.isSome_iff_exists.mp hsome
  refine ⟨p, ?_, hp, ?_⟩
  · have hfst : (findExactOrLess (splitVersion version) plugins).1 = some p := by
      rw [findExactOrLess_fst]; exact hp
    rw [ComponentPluginLoader.get_best_plugin, hfst]
  · have := List.find?_some hp
    simpa using this

/-- C2 witness at the spec's own example: versions 2.0.0, 2.1.0, 3.0.0 and
a request for exactly "3.0.0". -/
def demoPlugins : List Plugin :=
  [Plugin.init "obproxy" "/plugins/obproxy/2.0.0" "2.0.0",
   Plugin.init "obproxy" "/plugins/obproxy/2.1.0" "2.1.0",
   Plugin.init "obproxy" "/plugins/obproxy/3.0.0" "3.0.0"]

theorem C2_exact_match_resolution_witness :
    (∃ p ∈ demoPlugins, p.version = splitVersion "3.0.0") ∧
    (∃ p, ComponentPluginLoader.get_best_plugin "obproxy" "param" true demoPlugins "3.0.0"
          = (some p, []) ∧
        demoPlugins.find? (fun q => decide (q.version = splitVersion "3.0.0")) = some p ∧
        p.version = splitVersion "3.0.0") :=
  ⟨by decide, C2_exact_match_resolution "obproxy" "param" true demoPlugins "3.0.0" (by decide)⟩

/- ===== Claim C3: fallback to the maximum strictly-smaller version ===== -/

/-- C3: with no exact match, if some artifact's version compares below the
requested one the resolver returns a maximal such artifact and (when a
stdio is attached) emits exactly one warning carrying the component name,
the plugin-kind name, the requested tokens and the selected tokens;
if no artifact's version compares at-or-below, it returns none with no
warning. The order is the one the code uses (`versionLt`). -/
theorem C3_fallback_resolution (c k : String) (io : Bool) (plugins : List Plugin)
    (version : String)
    (hne : ∀ p ∈ plugins, p.version ≠ splitVersion version) :
    ((∃ p ∈ plugins, versionLt p.version (splitVersion version) = true) →
      ∃ b, (ComponentPluginLoader.get_best_plugin c k io plugins version)
            = (some b, if io then [⟨c, k, splitVersion version, b.version⟩] else []) ∧
        b ∈ plugins ∧ versionLt b.version (splitVersion version) = true ∧
        ∀ q ∈ plugins, versionLt q.version (splitVersion version) = true →
          versionLt b.version q.version = false) ∧
    ((∀ p ∈ plugins, versionLt p.version (splitVersion version) = false) →
      ComponentPluginLoader.get_best_plugin c k io plugins version = (none, [])) := by
  have hfst : (findExactOrLess (splitVersion version) plugins).1 = none := by
    rw [findExactOrLess_fst]
    rw [List.find?_eq_none]
    intro p hp
    simpa using hne p hp
  have hsnd := findExactOrLess_snd (splitVersion version) plugins hne
  constructor
  · intro hex
    obtain ⟨p0, hp0, hp0lt⟩ := hex
    have hp0f : p0 ∈ plugins.filter (fun p => versionLt p.version (splitVersion version)) :=
      List.mem_filter.mpr ⟨hp0, hp0lt⟩
    cases hfilter : plugins.filter (fun p => versionLt p.version (splitVersion version)) with
    | nil => rw [hfilter] at hp0f; simp at hp0f
    | cons p ps =>
      refine ⟨pyMaxByVersion p ps, ?_, ?_, ?_, ?_⟩
      · rw [ComponentPluginLoader.get_best_plugin, hfst, hsnd, hfilter]
      · have hmem := pyMaxByVersion_mem p ps
        rw [← hfilter] at hmem
        exact (List.mem_filter.mp hmem).1
      · have hmem := pyMaxByVersion_mem p ps
        rw [← hfilter] at hmem
        exact (List.mem_filter.mp hmem).2
      · intro q hq hqlt
        have hqf : q ∈ p :: ps := by
          rw [← hfilter]
          exact List.mem_filter.mpr ⟨hq, hqlt⟩
        exact pyMaxByVersion_not_lt p ps q hqf
  · intro hall
    have hfilter : plugins.filter (fun p => versionLt p.version (splitVersion version)) = [] := by
      rw [List.filter_eq_nil_iff]
      intro p hp
      simp [hall p hp]
    rw [ComponentPluginLoader.get_best_plugin, hfst, hsnd, hfilter]

/-- C3 witness at the spec's own example: with versions 2.0.0, 2.1.0, 3.0.0
a request for "2.5.0" falls back to 2.1.0 with one warning, and a request
for "1.0.0" resolves to nothing. -/
theorem C3_fallback_resolution_witness :
    ((∃ p ∈ demoPlugins, versionLt p.version (splitVersion "2.5.0") = true) →
      ∃ b, (ComponentPluginLoader.get_best_plugin "obproxy" "param" true demoPlugins "2.5.0")
            = (some b, if true then [⟨"obproxy", "param", splitVersion "2.5.0", b.version⟩] else []) ∧
        b ∈ demoPlugins ∧ versionLt b.version (splitVersion "2.5.0") = true ∧
        ∀ q ∈ demoPlugins, versionLt q.version (splitVersion "2.5.0") = true →
          versionLt b.version q.version = false) ∧
    ((∀ p ∈ demoPlugins, versionLt p.version (splitVersion "1.0.0") = false) →
      ComponentPluginLoader.get_best_plugin "obproxy" "param" true demoPlugins "1.0.0"
        = (none, [])) :=
  ⟨(C3_fallback_resolution "obproxy" "param" true demoPlugins "2.5.0" (by decide)).1,
   (C3_fallback_resolution "obproxy" "param" true demoPlugins "1.0.0" (by decide)).2⟩

/- ===== Return envelope and execution context (PluginReturn / PluginContext) ===== -/

/-- The envelope `PluginReturn`: success flag (default `False`), positional payload,
named payload. `V` is the type of payload values. -/
structure PluginReturn (V : Type) where
  value : Bool
  args : List V
  kwargs : List (String × V)
deriving DecidableEq

/-- Construction `PluginReturn()` with Python's defaults: `value=False`, no positional
and no named payload. -/
def PluginReturn.new {V : Type} : PluginReturn V := ⟨false, [], []⟩

/-- Embedding of `PluginReturn.get_return(key)`: the value stored under `key` in the
named payload if the key is present, Python `None` (here `none`) otherwise. -/
def PluginReturn.get_return {V : Type} (r : PluginReturn V) (key : String) : Option V :=
  match r.kwargs.find? (fun kv => decide (kv.1 = key)) with
  | some kv => some kv.2
  | none => none

def PluginReturn.set_return {V : Type} (r : PluginReturn V) (v : Bool) : PluginReturn V :=
  { r with value := v }

def PluginReturn.set_args {V : Type} (r : PluginReturn V) (args : List V) : PluginReturn V :=
  { r with args := args }

def PluginReturn.set_kwargs {V : Type} (r : PluginReturn V) (kwargs : List (String × V)) :
    PluginReturn V :=
  { r with kwargs := kwargs }

/-- Embedding of `PluginReturn.return_true(*args, **kwargs)`. -/
def PluginReturn.return_true {V : Type} (r : PluginReturn V) (args : List V)
    (kwargs : List (String × V)) : PluginReturn V :=
  ((r.set_return true).set_args args).set_kwargs kwargs

/-- Embedding of `PluginReturn.return_false(*args, **kwargs)`. -/
def PluginReturn.return_false {V : Type} (r : PluginReturn V) (args : List V)
    (kwargs : List (String × V)) : PluginReturn V :=
  ((r.set_return false).set_args args).set_kwargs kwargs

/-- The context `PluginContext`: the per-invocation bundle handed to a script entry
function. `C` stands for the collaborator data fixed at construction
(components, wrapped clients, cluster configuration, command, options,
wrapped stdio); the mutable part is the `PluginReturn` envelope, which
`__init__` starts at the default. -/
structure PluginContext (V C : Type) where
  cdata : C
  ret : PluginReturn V

/-- Construction `PluginContext(...)`: fresh context with a default envelope. -/
def PluginContext.new {V C : Type} (cdata : C) : PluginContext V C :=
  ⟨cdata, PluginReturn.new⟩

def PluginContext.get_return {V C : Type} (ctx : PluginContext V C) : PluginReturn V :=
  ctx.ret

def PluginContext.return_true {V C : Type} (ctx : PluginContext V C) (args : List V)
    (kwargs : List (String × V)) : PluginContext V C :=
  { ctx with ret := ctx.ret.return_true args kwargs }

def PluginContext.return_false {V C : Type} (ctx : PluginContext V C) (args : List V)
    (kwargs : List (String × V)) : PluginContext V C :=
  { ctx with ret := ctx.ret.return_false args kwargs }

/- ===== Script plugin execution (ScriptPlugin.before_do/after_do, pyScriptPluginExec) ===== -/

/-- A script entry function, as seen by `pyScriptPluginExec`: it receives
the execution context and either returns normally (`false`) or raises
(`true`); either way the context carries whatever the function wrote into
the envelope before finishing or raising. -/
def PyScriptFunc (V C : Type) : Type := PluginContext V C → PluginContext V C × Bool

/-- The loaded module as `pyScriptPluginExec` consumes it:
`getattr(self.module, method_name, False)` either finds the entry function
or does not. -/
def PyModule (V C : Type) : Type := Option (PyScriptFunc V C)

/-- The mutable fields of a `PyScriptPlugin` instance that the execution
wrapper touches: `self.module` (`None` until `_import` ran or when
importing failed) and `self.context`. -/
structure PyScriptPluginState (V C : Type) where
  module : Option (PyModule V C)
  context : Option (PluginContext V C)

/-- Embedding of `ScriptPlugin.before_do`: `_import` loads the module only if it is not
already loaded (`importResult` is what `DynamicLoading.import_module`
would produce), then a fresh `PluginContext` is built from the call's
collaborator data. -/
def ScriptPlugin.before_do {V C : Type} (importResult : Option (PyModule V C)) (cdata : C)
    (s : PyScriptPluginState V C) : PyScriptPluginState V C :=
  { module := match s.module with
      | some m => some m
      | none => importResult,
    context := some (PluginContext.new cdata) }

/-- Embedding of `ScriptPlugin.after_do`: `_export` releases the search path but leaves
`self.module` set; `self.context` is cleared. -/
def ScriptPlugin.after_do {V C : Type} (s : PyScriptPluginState V C) :
    PyScriptPluginState V C :=
  { s with context := none }

/-- What one run of the `pyScriptPluginExec` wrapper produces: the returned
envelope, the plugin state after `after_do`, how many times the module's
entry function was called, and how many exception reports went to stdio. -/
structure ExecResult (V C : Type) where
  ret : PluginReturn V
  state : PyScriptPluginState V C
  calls : Nat
  exceptionLogs : Nat

/-- Embedding of `pyScriptPluginExec`'s `_new_func`: `before_do`, then — if a module is
loaded and defines the entry function — call it, catching (and, when a
stdio is attached, logging) any exception; take the envelope from the
context (or a fresh default envelope if there is no context); `after_do`;
return the envelope. -/
def pyScriptPluginExec {V C : Type} (importResult : Option (PyModule V C)) (cdata : C)
    (hasStdio : Bool) (s : PyScriptPluginState V C) : ExecResult V C :=
  let s1 := ScriptPlugin.before_do importResult cdata s
  let step : Option (PluginContext V C) × Nat × Nat :=
    match s1.module with
    | some mod =>
      match mod with
      | some f =>
        match s1.context with
        | some ctx =>
          match f ctx with
          | (ctx2, raised) => (some ctx2, 1, if raised && hasStdio then 1 else 0)
        | none => (s1.context, 0, 0)
      | none => (s1.context, 0, 0)
    | none => (s1.context, 0, 0)
  let ret := match step.1 with
    | some ctx => ctx.get_return
    | none => PluginReturn.new
  ⟨ret, ScriptPlugin.after_do { s1 with context := step.1 }, step.2.1, step.2.2⟩

/- ===== Claim C4: entry function raises ===== -/

/-- C4 counterexample input: an entry function that first records success
through `return_true()` and then raises. -/
def raisingSuccessFunc : PyScriptFunc Nat Unit :=
  fun ctx => (ctx.return_true [] [], true)

/-- C4, counterexample to the claim as stated: this entry function raises
during the invocation, yet the returned envelope's success flag is `true`,
because the function called `return_true` before raising and the wrapper
returns whatever the context envelope holds when the exception is caught. -/
theorem C4_entry_raises_counterexample :
    (raisingSuccessFunc (PluginContext.new ())).2 = true ∧
    (pyScriptPluginExec (V := Nat) (C := Unit) none () true
        ⟨some (some raisingSuccessFunc), none⟩).ret.value = true :=
  ⟨rfl, rfl⟩

/-- C4 as amended: when the loaded module's entry function raises, the
invocation never raises to the caller, the exception is reported once
through stdio, the call ran exactly once, unload completes (the context is
cleared), and the returned envelope is the context's envelope as the entry
function left it before raising — so the success flag is `false` whenever
the entry function did not record a successful return first. -/
theorem C4_entry_raises_amended {V C : Type} (importResult : Option (PyModule V C)) (cdata : C)
    (ctx0 : Option (PluginContext V C)) (fbody : PluginContext V C → PluginContext V C) :
    pyScriptPluginExec importResult cdata true
        ⟨some (some (fun ctx => (fbody ctx, true))), ctx0⟩
      = ⟨(fbody (PluginContext.new cdata)).ret,
         ⟨some (some (fun ctx => (fbody ctx, true))), none⟩, 1, 1⟩ ∧
    ((fbody (PluginContext.new cdata)).ret.value = false →
      (pyScriptPluginExec importResult cdata true
          ⟨some (some (fun ctx => (fbody ctx, true))), ctx0⟩).ret.value = false) :=
  ⟨rfl, fun h => h⟩

/- ===== Claim C6: return_true(a, b, x=1) ===== -/

/-- C6: an entry function that calls `return_true(a, b, x=xv)` on its
context yields an envelope with success `true`, positional payload exactly
`(a, b)` and named payload exactly `{x: xv}`; the claim's instance is
`xv = 1`. -/
theorem C6_return_true_envelope {V C : Type} (importResult : Option (PyModule V C)) (cdata : C)
    (ctx0 : Option (PluginContext V C)) (io : Bool) (a b xv : V) :
    (pyScriptPluginExec importResult cdata io
        ⟨some (some (fun ctx => (ctx.return_true [a, b] [("x", xv)], false))), ctx0⟩).ret
      = ⟨true, [a, b], [("x", xv)]⟩ :=
  rfl

/- ===== Claim C7: module lacks the entry function ===== -/

/-- C7: when the loaded module defines no function named after the invoked
action (`getattr` yields its `False` default), the wrapper performs no call
into the module and still returns the context's untouched default-failure
envelope — success `false`, empty positional and named payload — with the
context cleared afterwards and nothing logged. -/
theorem C7_missing_entry_function {V C : Type} (importResult : Option (PyModule V C)) (cdata : C)
    (ctx0 : Option (PluginContext V C)) (io : Bool) :
    pyScriptPluginExec importResult cdata io
        (⟨some none, ctx0⟩ : PyScriptPluginState V C)
      = ⟨PluginReturn.new, ⟨some none, none⟩, 0, 0⟩ :=
  rfl

/- ===== Claim C8: sequential invocations are independent ===== -/

/-- C8: after any invocation the plugin's context reference is cleared;
`before_do` of the next invocation builds a fresh context whose envelope is
the default-failure one; and a second invocation started from the
post-invocation state produces exactly the result it would produce had the
first invocation never happened — no envelope or context state leaks. -/
theorem C8_sequential_invocation_independence {V C : Type}
    (importResult : Option (PyModule V C)) (c1 c2 : C) (io1 io2 : Bool)
    (s : PyScriptPluginState V C) :
    (pyScriptPluginExec importResult c1 io1 s).state.context = none ∧
    (ScriptPlugin.before_do importResult c2
        (pyScriptPluginExec importResult c1 io1 s).state).context
      = some (PluginContext.new c2) ∧
    pyScriptPluginExec importResult c2 io2 (pyScriptPluginExec importResult c1 io1 s).state
      = pyScriptPluginExec importResult c2 io2 s := by
  obtain ⟨m, ctx⟩ := s
  cases m with
  | none =>
    cases importResult with
    | none => exact ⟨rfl, rfl, rfl⟩
    | some mod => exact ⟨rfl, rfl, rfl⟩
  | some mod => exact ⟨rfl, rfl, rfl⟩

/- ===== Claim C10: PluginReturn.get_return ===== -/

theorem find_assoc_some {V : Type} (l : List (String × V)) (key : String) (v : V)
    (hnodup : (l.map Prod.fst).Nodup) (hmem : (key, v) ∈ l) :
    l.find? (fun kv => decide (kv.1 = key)) = some (key, v) := by
  induction l with
  | nil => simp at hmem
  | cons kv0 rest ih =>
    rw [List.map_cons, List.nodup_cons] at hnodup
    rw [List.mem_cons] at hmem
    rcases hmem with h | h
    · rw [← h]
      simp [List.find?]
    · have hkey : key ∈ rest.map Prod.fst := List.mem_map.mpr ⟨(key, v), h, rfl⟩
      have hne : ¬(kv0.1 = key) := fun heq => hnodup.1 (heq ▸ hkey)
      simp only [List.find?]
      rw [decide_eq_false hne]
      exact ih hnodup.2 h

/-- C10: `get_return(key)` returns the value stored under `key` in the
named payload when the key is present (the payload is a Python dict, so its
keys are unique), and `None` — never an exception — when it is absent. -/
theorem C10_get_return_total {V : Type} (r : PluginReturn V) (key : String) (v : V)
    (hnodup : (r.kwargs.map Prod.fst).Nodup) :
    ((key, v) ∈ r.kwargs → r.get_return key = some v) ∧
    (key ∉ r.kwargs.map Prod.fst → r.get_return key = none) := by
  constructor
  · intro hmem
    unfold PluginReturn.get_return
    rw [find_assoc_some r.kwargs key v hnodup hmem]
  · intro habs
    unfold PluginReturn.get_return
    have hnone : r.kwargs.find? (fun kv => decide (kv.1 = key)) = none := by
      rw [List.find?_eq_none]
      intro kv hkv
      simp only [decide_eq_true_eq]
      intro heq
      exact habs (List.mem_map.mpr ⟨kv, hkv, heq⟩)
    rw [hnone]

/-- C10 witness envelope: named payload with keys x and y. -/
def demoReturn : PluginReturn Nat := ⟨true, [], [("x", 5), ("y", 7)]⟩

theorem C10_get_return_total_witness :
    (demoReturn.kwargs.map Prod.fst).Nodup ∧
    (("x", 5) ∈ demoReturn.kwargs → demoReturn.get_return "x" = some 5) ∧
    ("z" ∉ demoReturn.kwargs.map Prod.fst → demoReturn.get_return "z" = none) :=
  ⟨by decide, (C10_get_return_total demoReturn "x" 5 (by decide)).1,
   (C10_get_return_total demoReturn "z" 7 (by decide)).2⟩

/- ===== Claim C9: the Plugin Manager and unknown kinds ===== -/

/-- The registered plugin kinds (`PluginType`). -/
inductive PluginType where
  | START
  | PARAM
  | INSTALL
  | PY_SCRIPT
deriving DecidableEq

/-- Embedding of `self.PLUGIN_TYPE.name.lower()`, as interpolated into the fallback
warning. -/
def PluginType.kindName : PluginType → String
  | .START => "start"
  | .PARAM => "param"
  | .INSTALL => "install"
  | .PY_SCRIPT => "py_script"

/-- The manager `PluginManager`'s loader table `component_plugin_loaders`: for each
registered kind, the per-component loader cache; a cached loader is
represented by the plugin list it discovers. -/
structure PluginManager where
  loaders : PluginType → Option (List (String × List Plugin))

/-- Embedding of `PluginManager.__init__`: a loader table entry for every `PluginType`,
then `PY_SCRIPT` is deleted (script plugins go through
`get_best_py_script_plugin` instead). -/
def PluginManager.init : PluginManager :=
  ⟨fun t => if t = PluginType.PY_SCRIPT then none else some []⟩

/-- Embedding of `PluginManager.get_best_plugin(plugin_type, component_name, version)`:
an unregistered kind yields `None` untouched; otherwise the component's
loader is fetched or created (`discover` abstracts the directory scan) and
resolution is delegated to it. The result carries the emitted warnings and
the manager state afterwards. -/
def PluginManager.get_best_plugin (discover : String → List Plugin) (m : PluginManager)
    (plugin_type : PluginType) (component_name version : String) (hasStdio : Bool) :
    Option Plugin × List FallbackWarning × PluginManager :=
  match m.loaders plugin_type with
  | none => (none, [], m)
  | some cache =>
    let cache2 := if (cache.find? (fun e => decide (e.1 = component_name))).isSome
      then cache
      else cache ++ [(component_name, discover component_name)]
    let plugins := ((cache2.find? (fun e => decide (e.1 = component_name))).map Prod.snd).getD []
    let r := ComponentPluginLoader.get_best_plugin component_name plugin_type.kindName
      hasStdio plugins version
    (r.1, r.2, ⟨fun u => if u = plugin_type then some cache2 else m.loaders u⟩)

/-- C9: a request for a plugin kind absent from the loader table — in
particular `PY_SCRIPT`, which `__init__` deletes — returns `None` without
raising, emits nothing, and leaves the manager (and so every loader cache)
untouched. -/
theorem C9_unknown_kind_returns_none (discover : String → List Plugin) (m : PluginManager)
    (t : PluginType) (c v : String) (io : Bool) (h : m.loaders t = none) :
    PluginManager.get_best_plugin discover m t c v io = (none, [], m) := by
  unfold PluginManager.get_best_plugin
  rw [h]

theorem C9_unknown_kind_returns_none_witness :
    PluginManager.init.loaders PluginType.PY_SCRIPT = none ∧
    PluginManager.get_best_plugin (fun _ => []) PluginManager.init PluginType.PY_SCRIPT
        "obproxy" "3.0.0" true
      = (none, [], PluginManager.init) :=
  ⟨rfl, C9_unknown_kind_returns_none (fun _ => []) PluginManager.init PluginType.PY_SCRIPT
    "obproxy" "3.0.0" true rfl⟩

/- ===== Claim C5: lazily parsed manifests (ParamPlugin.params / InstallPlugin.file_map) ===== -/

/-- Modelled from the spec: `ConfigUtil.get_value_from_dict(conf, key, default)`
lives in `tool.py`, which is not among the sources here; per the external
interface description each optional manifest field has a default, so the
helper yields the stored value when the field is present and the supplied
default otherwise, raising nothing. The field is already extracted to an
`Option` here. -/
def ConfigUtil.get_value_from_dict {β : Type} (field : Option β) (dflt : β) : β :=
  field.getD dflt

/-- One parsed record of `parameter.yaml`, as the YAML collaborator hands
it over: every field may be absent. `name` is required by the code in the
sense that `conf['name']` raises `KeyError` when it is missing. The
`default` field collapses an absent key and an explicit null, since
`get_value_from_dict(conf, 'default', None)` maps both to `None`. -/
structure ConfRecord (V : Type) where
  name : Option String
  default : Option V
  require : Option Bool
  need_restart : Option Bool
  need_redeploy : Option Bool
deriving DecidableEq

/-- Embedding of `ParamPlugin.ConfigItem`. -/
structure ConfigItem (V : Type) where
  name : String
  default : Option V
  require : Bool
  need_restart : Bool
  need_redeploy : Bool
deriving DecidableEq

/-- The `ConfigItem(...)` construction inside `ParamPlugin.params`. -/
def ParamPlugin.mkConfigItem {V : Type} (n : String) (r : ConfRecord V) : ConfigItem V :=
  ⟨n, r.default,
   ConfigUtil.get_value_from_dict r.require false,
   ConfigUtil.get_value_from_dict r.need_restart false,
   ConfigUtil.get_value_from_dict r.need_redeploy false⟩

/-- Python dict assignment `d[k] = v` on an insertion-ordered mapping:
overwrite in place when the key exists, append otherwise. -/
def dictInsert {β : Type} (l : List (String × β)) (k : String) (v : β) : List (String × β) :=
  if (l.find? (fun kv => decide (kv.1 = k))).isSome
  then l.map (fun kv => if kv.1 = k then (k, v) else kv)
  else l ++ [(k, v)]

/-- The `for conf in configs` loop of `ParamPlugin.params`, building
`self._src_data`: a record without its required `name` raises `KeyError`,
which the enclosing blanket `except` swallows, so the loop stops there and
the mapping built so far is kept. -/
def ParamPlugin.buildParams {V : Type} :
    List (ConfRecord V) → List (String × ConfigItem V) → List (String × ConfigItem V)
  | [], acc => acc
  | r :: rs, acc =>
    match r.name with
    | none => acc
    | some n => ParamPlugin.buildParams rs (dictInsert acc n (ParamPlugin.mkConfigItem n r))

/-- Embedding of `ParamPlugin.params`: `self._src_data = {}` runs before the file is
opened, so a missing file or an unparseable document (`manifest = none`)
leaves the empty mapping; otherwise the records are folded in, stopping at
the first one without a `name`. -/
def ParamPlugin.params {V : Type} (manifest : Option (List (ConfRecord V))) :
    List (String × ConfigItem V) :=
  match manifest with
  | none => []
  | some recs => ParamPlugin.buildParams recs []

/-- One parsed record of `file_map.yaml`: `src_path` is required
(`data['src_path']` raises on absence), the rest optional. -/
structure FileRecord where
  src_path : Option String
  target_path : Option String
  type : Option String
deriving DecidableEq

/-- Embedding of `InstallPlugin.FileItem`. -/
structure FileItem where
  src_path : String
  target_path : String
  type : String
deriving DecidableEq

/-- Normalization of `src_path` in `InstallPlugin.file_map`: when the path
does not already start with a dot it becomes `'.%s' % os.path.join('/', k)`
— a dot, then the path made absolute-style. The empty path has no `k[0]`
and raises `IndexError` (hence `none`). -/
def InstallPlugin.normalizeSrcPath (k : String) : Option String :=
  match k.data with
  | [] => none
  | c :: _ => some (if c = '.' then k else if c = '/' then "." ++ k else "./" ++ k)

/-- The `FileItem(...)` construction inside `InstallPlugin.file_map`:
`target_path` defaults to the normalized source path, and a missing or
falsy (empty) `type` becomes "file". -/
def InstallPlugin.mkFileItem (k : String) (r : FileRecord) : FileItem :=
  ⟨k, ConfigUtil.get_value_from_dict r.target_path k,
   match r.type with
   | some t => if t = "" then "file" else t
   | none => "file"⟩

/-- The `for data in file_map` loop of `InstallPlugin.file_map`: a record
whose `src_path` is absent (KeyError) or empty (IndexError during
normalization) stops the loop, keeping the mapping built so far. -/
def InstallPlugin.buildFileMap :
    List FileRecord → List (String × FileItem) → List (String × FileItem)
  | [], acc => acc
  | r :: rs, acc =>
    match r.src_path with
    | none => acc
    | some k0 =>
      match InstallPlugin.normalizeSrcPath k0 with
      | none => acc
      | some k => InstallPlugin.buildFileMap rs (dictInsert acc k (InstallPlugin.mkFileItem k r))

/-- Embedding of `InstallPlugin.file_map`: `self._file_map = {}` runs before the file is
opened, so a missing or unparseable manifest yields the empty mapping. -/
def InstallPlugin.file_map (manifest : Option (List FileRecord)) : List (String × FileItem) :=
  match manifest with
  | none => []
  | some recs => InstallPlugin.buildFileMap recs []

theorem buildParams_stops_at_bad {V : Type} (bad : ConfRecord V) (hbad : bad.name = none) :
    ∀ (good : List (ConfRecord V)) (rest : List (ConfRecord V)) (acc : List (String × ConfigItem V)),
      ParamPlugin.buildParams (good ++ bad :: rest) acc = ParamPlugin.buildParams good acc := by
  intro good
  induction good with
  | nil =>
    intro rest acc
    simp [ParamPlugin.buildParams, hbad]
  | cons r rs ih =>
    intro rest acc
    cases hr : r.name with
    | none => simp [ParamPlugin.buildParams, hr]
    | some n => simp [ParamPlugin.buildParams, hr, ih]

theorem buildFileMap_stops_at_bad (fbad : FileRecord) (hfbad : fbad.src_path = none) :
    ∀ (fgood : List FileRecord) (frest : List FileRecord) (acc : List (String × FileItem)),
      InstallPlugin.buildFileMap (fgood ++ fbad :: frest) acc
        = InstallPlugin.buildFileMap fgood acc := by
  intro fgood
  induction fgood with
  | nil =>
    intro frest acc
    simp [InstallPlugin.buildFileMap, hfbad]
  | cons r rs ih =>
    intro frest acc
    cases hr : r.src_path with
    | none => simp [InstallPlugin.buildFileMap, hr]
    | some k0 =>
      cases hk : InstallPlugin.normalizeSrcPath k0 with
      | none => simp [InstallPlugin.buildFileMap, hr, hk]
      | some k => simp [InstallPlugin.buildFileMap, hr, hk, ih]

/-- C5 counterexample to the claim as stated: a parameter manifest whose
second record is malformed (it lacks the required `name`) makes the
accessor return the PARTIAL mapping holding the first record — not an
empty mapping. -/
theorem C5_swallowed_parse_counterexample :
    ParamPlugin.params (V := Nat)
        (some [⟨some "a", none, none, none, none⟩, ⟨none, none, none, none, none⟩]) ≠ [] := by
  decide

/-- C5 as amended: for both lazily parsed payload accessors, a missing
file or an unparseable document yields an empty mapping, and a record
missing its required field ends parsing at that record, yielding the
(possibly non-empty) partial mapping of the records before it; in every
case the failure is swallowed, nothing is raised. -/
theorem C5_swallowed_parse_amended {V : Type} (good : List (ConfRecord V)) (bad : ConfRecord V)
    (rest : List (ConfRecord V)) (hbad : bad.name = none)
    (fgood : List FileRecord) (fbad : FileRecord) (frest : List FileRecord)
    (hfbad : fbad.src_path = none) :
    ParamPlugin.params (V := V) none = [] ∧
    ParamPlugin.params (some (good ++ bad :: rest)) = ParamPlugin.buildParams good [] ∧
    InstallPlugin.file_map none = [] ∧
    InstallPlugin.file_map (some (fgood ++ fbad :: frest)) = InstallPlugin.buildFileMap fgood [] :=
  ⟨rfl, buildParams_stops_at_bad bad hbad good rest [],
   rfl, buildFileMap_stops_at_bad fbad hfbad fgood frest []⟩

theorem C5_swallowed_parse_amended_witness :
    (⟨none, none, none, none, none⟩ : ConfRecord Nat).name = none ∧
    (⟨none, none, none⟩ : FileRecord).src_path = none ∧
    (ParamPlugin.params (V := Nat) none = [] ∧
     ParamPlugin.params (some ([⟨some "a", none, none, none, none⟩]
          ++ (⟨none, none, none, none, none⟩ : ConfRecord Nat) :: []))
        = ParamPlugin.buildParams [⟨some "a", none, none, none, none⟩] [] ∧
     InstallPlugin.file_map none = [] ∧
     InstallPlugin.file_map (some ([⟨some "etc/f.cnf", some "etc/f.cnf", none⟩]
          ++ (⟨none, none, none⟩ : FileRecord) :: []))
        = InstallPlugin.buildFileMap [⟨some "etc/f.cnf", some "etc/f.cnf", none⟩] []) :=
  ⟨rfl, rfl,
   C5_swallowed_parse_amended [⟨some "a", none, none, none, none⟩]
     ⟨none, none, none, none, none⟩ [] rfl
     [⟨some "etc/f.cnf", some "etc/f.cnf", none⟩] ⟨none, none, none⟩ [] rfl⟩
